import Mathlib

/-!
Verification of the Autonomous-Drone ground-control utility.

A shallow embedding of `mission_generator.py` and `gcs_server.py`:
the mission-transfer engine (`upload_mission`), the waypoint producers
(`generate_mission_items`, `parse_plan_file`, `parse_txt_file`), the
command-line flow of `mission_generator.py`'s main block, and the
telemetry relay loop (`mavlink_thread` of `gcs_server.py`).

Python floats are modelled as rationals (ℚ); Python `int()` truncation
and `round()` (half-to-even) are modelled explicitly.  The vehicle on the
other side of the MAVLink link is modelled as a script: an optional
acknowledgement of the clear command, a stream of mission-item request
sequence numbers (exhaustion of the stream models a receive timeout), and
an optional final mission acknowledgement code.
-/

/-- Python `int(x)` on a float: truncation toward zero. -/
def pyInt (q : ℚ) : Int := q.num.tdiv (q.den : Int)

/-- Rounding half-to-even of a rational to an integer, as Python `round`. -/
def roundHalfEven (q : ℚ) : Int :=
  let f : Int := ⌊q⌋
  let frac : ℚ := q - (f : ℚ)
  if frac < 1/2 then f
  else if 1/2 < frac then f + 1
  else if f % 2 = 0 then f else f + 1

/-- Python `round(x, 2)`: round to 2 decimal places, half-to-even. -/
def round2 (q : ℚ) : ℚ := (roundHalfEven (q * 100) : ℚ) / 100

/-- A mission item, the shape of the dictionaries built by all three
waypoint producers in `mission_generator.py` (keys `seq`, `frame`,
`command`, `current`, `autocontinue`, `param1`..`param4`, `x`, `y`, `z`).
Integer-valued keys are `Int` (the legacy text decoder stores `int(...)`
of arbitrary file values), float-valued keys are ℚ.  Python booleans that
can land in `autocontinue` (from `.plan` files) are modelled as 1/0. -/
structure MItem where
  seq : Int
  frame : Int
  command : Int
  current : Int
  autocontinue : Int
  param1 : ℚ
  param2 : ℚ
  param3 : ℚ
  param4 : ℚ
  x : ℚ
  y : ℚ
  z : ℚ
deriving DecidableEq

instance : Inhabited MItem := ⟨⟨0, 0, 0, 0, 0, 0, 0, 0, 0, 0, 0, 0⟩⟩

/-- MAVLink constant `MAV_FRAME_GLOBAL_RELATIVE_ALT`. -/
def MAV_FRAME_GLOBAL_RELATIVE_ALT : Int := 3
/-- MAVLink constant `MAV_CMD_NAV_TAKEOFF`. -/
def MAV_CMD_NAV_TAKEOFF : Int := 22
/-- MAVLink constant `MAV_CMD_NAV_WAYPOINT`. -/
def MAV_CMD_NAV_WAYPOINT : Int := 16
/-- MAVLink constant `MAV_CMD_NAV_RETURN_TO_LAUNCH`. -/
def MAV_CMD_NAV_RETURN_TO_LAUNCH : Int := 20
/-- MAVLink constant `MAV_MISSION_ACCEPTED`. -/
def MAV_MISSION_ACCEPTED : Int := 0

/-- Model of `generate_mission_items` of `mission_generator.py`: takeoff, three
waypoints of a square pattern, and return-to-launch. -/
def generate_mission_items : List MItem :=
  [ { seq := 0, frame := MAV_FRAME_GLOBAL_RELATIVE_ALT,
      command := MAV_CMD_NAV_TAKEOFF, current := 1, autocontinue := 1,
      param1 := 15, param2 := 0, param3 := 0, param4 := 0,
      x := 47.397742, y := 8.545594, z := 20.0 },
    { seq := 1, frame := MAV_FRAME_GLOBAL_RELATIVE_ALT,
      command := MAV_CMD_NAV_WAYPOINT, current := 0, autocontinue := 1,
      param1 := 0, param2 := 0, param3 := 0, param4 := 0,
      x := 47.398742, y := 8.545594, z := 20.0 },
    { seq := 2, frame := MAV_FRAME_GLOBAL_RELATIVE_ALT,
      command := MAV_CMD_NAV_WAYPOINT, current := 0, autocontinue := 1,
      param1 := 0, param2 := 0, param3 := 0, param4 := 0,
      x := 47.398742, y := 8.546594, z := 20.0 },
    { seq := 3, frame := MAV_FRAME_GLOBAL_RELATIVE_ALT,
      command := MAV_CMD_NAV_WAYPOINT, current := 0, autocontinue := 1,
      param1 := 0, param2 := 0, param3 := 0, param4 := 0,
      x := 47.397742, y := 8.546594, z := 20.0 },
    { seq := 4, frame := MAV_FRAME_GLOBAL_RELATIVE_ALT,
      command := MAV_CMD_NAV_RETURN_TO_LAUNCH, current := 0, autocontinue := 1,
      param1 := 0, param2 := 0, param3 := 0, param4 := 0,
      x := 0, y := 0, z := 0 } ]

/-- The wire form of one `mission_item_int_send` call of
`upload_mission`: the item's own fields, with latitude and longitude
scaled by 1e7 and truncated to integers by Python `int()`. -/
structure WireItem where
  seq : Int
  frame : Int
  command : Int
  current : Int
  autocontinue : Int
  param1 : ℚ
  param2 : ℚ
  param3 : ℚ
  param4 : ℚ
  x_int : Int
  y_int : Int
  z : ℚ
deriving DecidableEq

/-- The arguments `upload_mission` passes to `mission_item_int_send`
for a given item dictionary. -/
def encodeItem (it : MItem) : WireItem :=
  { seq := it.seq, frame := it.frame, command := it.command,
    current := it.current, autocontinue := it.autocontinue,
    param1 := it.param1, param2 := it.param2,
    param3 := it.param3, param4 := it.param4,
    x_int := pyInt (it.x * 10000000),
    y_int := pyInt (it.y * 10000000),
    z := it.z }

/-- Observable actions of `upload_mission` toward the vehicle: opening
the connection (with its heartbeat wait), and the three kinds of protocol
messages it can send. -/
inductive Event where
  | connect
  | clearAll
  | missionCount (n : Nat)
  | missionItem (w : WireItem)
deriving DecidableEq

/-- The simulated vehicle for one upload attempt: `clearAck` is the
`MISSION_ACK` answering the clear command (`none` = 3-second timeout),
`requests` is the stream of `MISSION_REQUEST`/`MISSION_REQUEST_INT`
sequence numbers (exhaustion = 3-second timeout), `finalAck` is the
result code of the final `MISSION_ACK` (`none` = timeout). -/
structure VehicleScript where
  clearAck : Option Int
  requests : List Nat
  finalAck : Option Int

/-- The ways `upload_mission` can return, one per `return`/fall-through
path of the Python function. -/
inductive UploadOutcome where
  | emptyList
  | clearTimedOut
  | requestTimedOut
  | finalTimedOut
  | accepted
  | rejected (code : Int)
deriving DecidableEq

/-- The `for item in items` loop of `upload_mission`: exactly
`rounds = len(items)` receive rounds.  Each round pops the next request
from the stream; an exhausted stream is the 3-second receive timeout
(the Boolean result is false: the function returns early).  A request
`seq ≥ len(items)` is logged and skipped by `continue` — which still
consumes the round.  An in-range request sends `items[seq]` encoded. -/
def uploadLoop (items : List MItem) : Nat → List Nat → List Event × Bool
  | 0, _ => ([], true)
  | _ + 1, [] => ([], false)
  | rounds + 1, seq :: rest =>
      if items.length ≤ seq then uploadLoop items rounds rest
      else
        let r := uploadLoop items rounds rest
        (Event.missionItem (encodeItem (items.getD seq default)) :: r.1, r.2)

/-- Model of `upload_mission` of `mission_generator.py`, as a function from the
mission list and the vehicle's scripted behaviour to the trace of
observable actions and the outcome. -/
def upload_mission (items : List MItem) (v : VehicleScript) :
    List Event × UploadOutcome :=
  if items.isEmpty then ([], UploadOutcome.emptyList)
  else
    match v.clearAck with
    | none => ([Event.connect, Event.clearAll], UploadOutcome.clearTimedOut)
    | some _ =>
        let r := uploadLoop items items.length v.requests
        let pre := Event.connect :: Event.clearAll ::
          Event.missionCount items.length :: r.1
        if r.2 then
          match v.finalAck with
          | none => (pre, UploadOutcome.finalTimedOut)
          | some code =>
              if code = MAV_MISSION_ACCEPTED then (pre, UploadOutcome.accepted)
              else (pre, UploadOutcome.rejected code)
        else (pre, UploadOutcome.requestTimedOut)

/-- The item message `upload_mission` sends for request sequence `s`. -/
def itemMsg (items : List MItem) (s : Nat) : Event :=
  Event.missionItem (encodeItem (items.getD s default))

/-! Definitions for the `.plan` decoder (`parse_plan_file`). -/

/-- One raw sub-item of a decoded `.plan` JSON file, as the dictionary
keys `parse_plan_file` reads: `params` is `none` when the key is absent
or not a list, entries are `none` for JSON `null`; `frame`, `command`
and `autoContinue` are `none` when absent (Python `.get` defaults 3, 16
and `True` are applied at read time). -/
structure RawSub where
  params : Option (List (Option ℚ))
  frame : Option Int
  command : Option Int
  autocontinue : Option Int
deriving DecidableEq

/-- One entry of `mission -> items` of a `.plan` file: a `ComplexItem`
(with its `TransectStyleComplexItem -> Items` sub-items), a
`SimpleItem`, or an item of any other type (skipped). -/
inductive RawItem where
  | complex (subs : List RawSub)
  | simple (s : RawSub)
  | other
deriving DecidableEq

/-- The `process_params` helper of `parse_plan_file`: default
`[0]*7` when the value is not a list, replace `None` entries by 0,
pad on the right to at least 7 entries. -/
def processParams : Option (List (Option ℚ)) → List ℚ
  | none => [0, 0, 0, 0, 0, 0, 0]
  | some l =>
      let safe := l.map (fun p => p.getD 0)
      safe ++ List.replicate (7 - safe.length) 0

/-- The dictionary `parse_plan_file` appends for one sub-item at
sequence counter `c`. -/
def mkPlanItem (c : Nat) (s : RawSub) : MItem :=
  let ps := processParams s.params
  { seq := (c : Int), frame := s.frame.getD 3, command := s.command.getD 16,
    current := if c = 0 then 1 else 0, autocontinue := s.autocontinue.getD 1,
    param1 := ps.getD 0 0, param2 := ps.getD 1 0,
    param3 := ps.getD 2 0, param4 := ps.getD 3 0,
    x := ps.getD 4 0, y := ps.getD 5 0, z := ps.getD 6 0 }

/-- The sub-item loop of the `ComplexItem` branch: one item per
sub-item, consecutive sequence counters starting at `c`. -/
def subsToItems : List RawSub → Nat → List MItem
  | [], _ => []
  | s :: ss, c => mkPlanItem c s :: subsToItems ss (c + 1)

/-- The main loop of `parse_plan_file` over `raw_items`, threading the
`seq_counter`. -/
def planCollect : List RawItem → Nat → List MItem
  | [], _ => []
  | RawItem.complex subs :: rest, c =>
      subsToItems subs c ++ planCollect rest (c + subs.length)
  | RawItem.simple s :: rest, c => mkPlanItem c s :: planCollect rest (c + 1)
  | RawItem.other :: rest, c => planCollect rest c

/-- The final correction pass of `parse_plan_file`: for every position
`i`, set `current` to 1 exactly when `i = 0` and re-sequence `seq := i`.
`i` is the position offset from the initial index argument. -/
def reindex (i : Nat) : List MItem → List MItem
  | [] => []
  | it :: rest =>
      { it with seq := (i : Int), current := if i = 0 then 1 else 0 } ::
        reindex (i + 1) rest

/-- Model of `parse_plan_file` on a successfully JSON-decoded file whose
`mission -> items` list is `raw`: collect simple and complex items,
then re-sequence and fix the `current` flag. -/
def parse_plan (raw : List RawItem) : List MItem :=
  reindex 0 (planCollect raw 0)

/-! Definitions for the legacy `.txt` decoder (`parse_txt_file`).

A file is a list of lines, a line a list of characters.  Python
`float()` is modelled in two stages: a decidable literal recognizer
`floatLit?` (sign, integer digits, fraction digits — the plain decimal
sublanguage of Python float literals, which covers every value the
claims exercise) and its rational value `litVal`. -/

/-- The whitespace characters stripped by Python `str.strip()`. -/
def isPySpace (c : Char) : Bool :=
  c = ' ' || c = '\t' || c = '\n' || c = '\r' || c = '\x0b' || c = '\x0c'

/-- Python `str.strip()`: remove leading and trailing whitespace. -/
def strip (l : List Char) : List Char :=
  ((l.dropWhile isPySpace).reverse.dropWhile isPySpace).reverse

/-- Python `str.split('\t')`: split at every tab; `n` tabs give
`n + 1` parts. -/
def splitTab : List Char → List (List Char)
  | [] => [[]]
  | c :: rest =>
      if c = '\t' then [] :: splitTab rest
      else
        match splitTab rest with
        | [] => [[c]]
        | p :: ps => (c :: p) :: ps

/-- Python `str.startswith(pat)` as a character-list test. -/
def startsWithChars : List Char → List Char → Bool
  | [], _ => true
  | _ :: _, [] => false
  | p :: ps, c :: cs => p = c && startsWithChars ps cs

/-- The header `parse_txt_file` requires on the first line. -/
def qgcHeader : List Char := ['Q', 'G', 'C', ' ', 'W', 'P', 'L']

/-- Modelled from the spec and the Python builtin: the syntactic part of
`float(s)` restricted to plain decimal literals — optional sign, then
digits with an optional single point; `none` models the `ValueError`
that `parse_txt_file`'s `except` clause turns into a whole-file
failure. -/
def floatLit? (s : List Char) : Option (Bool × List Char × List Char) :=
  let (neg, body) :=
    match s with
    | '-' :: rest => (true, rest)
    | '+' :: rest => (false, rest)
    | l => (false, l)
  let ip := body.takeWhile Char.isDigit
  match body.dropWhile Char.isDigit with
  | [] => if ip.isEmpty then none else some (neg, ip, [])
  | '.' :: fp =>
      if fp.all Char.isDigit && !(ip.isEmpty && fp.isEmpty) then
        some (neg, ip, fp)
      else none
  | _ :: _ => none

/-- Numeric value of a digit string. -/
def digitsToNat (l : List Char) : Nat :=
  l.foldl (fun acc c => acc * 10 + (c.toNat - 48)) 0

/-- The rational value of a recognized float literal. -/
def litVal (f : Bool × List Char × List Char) : ℚ :=
  let v : ℚ := (digitsToNat f.2.1 : ℚ) + (digitsToNat f.2.2 : ℚ) / 10 ^ f.2.2.length
  if f.1 then -v else v

/-- The dictionary `parse_txt_file` appends for one retained line whose
12 fields parsed to the floats `p`. -/
def mkTxtItem (p : List ℚ) : MItem :=
  { seq := pyInt (p.getD 0 0), frame := pyInt (p.getD 2 0),
    command := pyInt (p.getD 3 0), current := pyInt (p.getD 1 0),
    autocontinue := pyInt (p.getD 11 0),
    param1 := p.getD 4 0, param2 := p.getD 5 0,
    param3 := p.getD 6 0, param4 := p.getD 7 0,
    x := p.getD 8 0, y := p.getD 9 0, z := p.getD 10 0 }

/-- One body line of `parse_txt_file`: `some none` is a silently
skipped line (blank, `#`-comment, or not exactly 12 tab-separated
fields), `none` is a float `ValueError` that aborts the whole file,
`some (some it)` is a parsed waypoint. -/
def parseTxtLine (line : List Char) : Option (Option MItem) :=
  if strip line = [] ∨ line.head? = some '#' then some none
  else
    let parts := splitTab (strip line)
    if parts.length ≠ 12 then some none
    else
      match parts.mapM floatLit? with
      | none => none
      | some lits => some (some (mkTxtItem (lits.map litVal)))

/-- The body loop of `parse_txt_file`: skipped lines contribute
nothing; a float error discards the whole file including items already
parsed. -/
def parseTxtBody : List (List Char) → Option (List MItem)
  | [] => some []
  | l :: ls =>
      match parseTxtLine l with
      | none => none
      | some none => parseTxtBody ls
      | some (some it) => (parseTxtBody ls).map (it :: ·)

/-- Model of `parse_txt_file` on the list of lines of the file: an empty file is
an `IndexError` caught as failure; a first line without the `QGC WPL`
header is rejected; otherwise the body lines are processed. -/
def parse_txt (lines : List (List Char)) : Option (List MItem) :=
  match lines with
  | [] => none
  | h :: body =>
      if startsWithChars qgcHeader h then parseTxtBody body else none

/-! Definitions for the command-line flow of `mission_generator.py`. -/

/-- A mission file named by `--load-file`, after the extension dispatch
of `load_mission_from_file`: a `.plan` file (with a flag for whether
JSON decoding succeeded, and its decoded raw items), a `.txt` file (its
lines), or a path with an unknown extension. -/
inductive FileInput where
  | planFile (jsonOk : Bool) (raw : List RawItem)
  | txtFile (lines : List (List Char))
  | unknownExt

/-- Model of `load_mission_from_file`: dispatch on the file extension. -/
def load_mission_from_file : FileInput → Option (List MItem)
  | FileInput.planFile false _ => none
  | FileInput.planFile true raw => some (parse_plan raw)
  | FileInput.txtFile lines => parse_txt lines
  | FileInput.unknownExt => none

/-- How the `__main__` block of `mission_generator.py` ends: `exitEarly
code` is the bare `exit()` call after a failed load (Python `exit()`
raises `SystemExit(None)`, i.e. process status 0); `finished` is
falling off the end of the script (status 0). -/
inductive MainResult where
  | exitEarly (code : Nat)
  | finished
deriving DecidableEq

/-- The parsed command-line arguments that matter to the flow. -/
structure MainArgs where
  upload : Bool
  loadFile : Option FileInput

/-- The `__main__` block: load the requested file or generate the
mission, exit early on a falsy load result, otherwise upload when
requested.  Returns how the process ends and the trace of network
actions. -/
def mainFlow (args : MainArgs) (v : VehicleScript) :
    MainResult × List Event :=
  match args.loadFile with
  | some f =>
      match load_mission_from_file f with
      | none => (MainResult.exitEarly 0, [])
      | some [] => (MainResult.exitEarly 0, [])
      | some items => (MainResult.finished, (upload_mission items v).1)
  | none =>
      if args.upload then
        (MainResult.finished, (upload_mission generate_mission_items v).1)
      else (MainResult.finished, [])

/-! Definitions for the telemetry relay (`mavlink_thread` of `gcs_server.py`). -/

/-- A message delivered by `recv_match` in the relay's inner loop:
either the position report the relay decodes, or any other type
(discarded). -/
inductive TelemetryMsg where
  | globalPositionInt (lat lon relativeAlt : Int)
  | other
deriving DecidableEq

/-- Observable actions of one pass of `mavlink_thread`: a connection
attempt, the Socket.IO status and GPS events, the `finally`-block
session cleanup, and the 5-second sleep before reconnecting. -/
inductive RelayEvent where
  | connectAttempt
  | statusConnected
  | statusTimeout
  | statusError (e : String)
  | gpsUpdate (lat lon alt : ℚ)
  | sessionCleanup
  | backoff (secs : Nat)
deriving DecidableEq

/-- How the inner receive loop of one iteration ends: a 5-second
receive timeout (`break`), or a transport exception. -/
inductive SessionEnd where
  | timeout
  | exn (e : String)

/-- One full iteration of the outer `while True` loop of
`mavlink_thread`: either connecting itself raised, or a session was
established that delivered some messages and then ended. -/
inductive IterationInput where
  | connectFail (e : String)
  | session (msgs : List TelemetryMsg) (ending : SessionEnd)

/-- The handling of one received message by the inner loop: decode a
`GLOBAL_POSITION_INT` (fixed-point degrees divided by 1e7, millimeters
to meters rounded to 2 decimals), discard everything else. -/
def handleMsg : TelemetryMsg → List RelayEvent
  | TelemetryMsg.globalPositionInt la lo ra =>
      [RelayEvent.gpsUpdate ((la : ℚ) / 10000000) ((lo : ℚ) / 10000000)
        (round2 ((ra : ℚ) / 1000))]
  | TelemetryMsg.other => []

/-- Events emitted when the inner loop ends: the timeout status on a
receive timeout, the error status from the `except` clause on an
exception. -/
def endEvents : SessionEnd → List RelayEvent
  | SessionEnd.timeout => [RelayEvent.statusTimeout]
  | SessionEnd.exn e => [RelayEvent.statusError ("MAVLink Error: " ++ e)]

/-- One iteration of the outer loop: attempt to connect; on success
emit the connected status, drain the message stream, handle the ending;
the `finally` clause always closes the session and sleeps 5 seconds. -/
def relayIteration : IterationInput → List RelayEvent
  | IterationInput.connectFail e =>
      [RelayEvent.connectAttempt, RelayEvent.statusError ("MAVLink Error: " ++ e),
       RelayEvent.sessionCleanup, RelayEvent.backoff 5]
  | IterationInput.session msgs ending =>
      RelayEvent.connectAttempt :: RelayEvent.statusConnected ::
        (msgs.flatMap handleMsg ++ endEvents ending ++
          [RelayEvent.sessionCleanup, RelayEvent.backoff 5])

/-- The outer `while True` loop over any finite prefix of iteration
behaviours. -/
def relayRun (inps : List IterationInput) : List RelayEvent :=
  inps.flatMap relayIteration

/-- Whether a relay event is one of the `status_update` emissions the
loop produces on an error (timeout or exception). -/
def isErrorStatus : RelayEvent → Bool
  | RelayEvent.statusTimeout => true
  | RelayEvent.statusError _ => true
  | _ => false

/-! Definitions for the Waypoint invariants of the specification. -/

/-- The §3 Waypoint invariants: `sequence` values within the list are
contiguous from 0, exactly one item is current, and that item is the
one with sequence 0. -/
def missionInvariant (l : List MItem) : Prop :=
  (∀ j, j < l.length → (l.getD j default).seq = (j : Int)) ∧
  l.countP (fun it => it.current == 1) = 1 ∧
  ∀ it ∈ l, it.current = 1 → it.seq = 0

/-- Fixed concrete waypoints used in witnesses and counterexamples. -/
def wA : MItem := ⟨0, 3, 16, 1, 1, 0, 0, 0, 0, 1, 2, 3⟩

/-- A second fixed concrete waypoint. -/
def wB : MItem := ⟨1, 3, 16, 0, 1, 0, 0, 0, 0, 4, 5, 6⟩

/-- A concrete two-line legacy mission file: a valid header and one
data line whose `seq` field is 1 and `current` field is 0. -/
def txtBadLines : List (List Char) :=
  ["QGC WPL 110".data, "1\t0\t3\t16\t0\t0\t0\t0\t9\t9\t9\t1".data]

/-- The waypoint `parse_txt_file` builds from the data line of
`txtBadLines`. -/
def txtBadItem : MItem := ⟨1, 3, 16, 0, 1, 0, 0, 0, 0, 9, 9, 9⟩

instance missionInvariantDec (l : List MItem) : Decidable (missionInvariant l) := by
  unfold missionInvariant
  infer_instance

theorem uploadLoop_eq (items : List MItem) :
    ∀ (rounds : Nat) (reqs : List Nat),
      uploadLoop items rounds reqs =
        (((reqs.take rounds).filter (fun s => decide (s < items.length))).map
            (itemMsg items),
         decide (rounds ≤ reqs.length)) := by
  intro rounds
  induction rounds with
  | zero => intro reqs; simp [uploadLoop]
  | succ n ih =>
      intro reqs
      cases reqs with
      | nil => simp [uploadLoop]
      | cons s rest =>
          by_cases h : items.length ≤ s
          · rw [uploadLoop, if_pos h, ih]
            have hs : ¬ s < items.length := not_lt.mpr h
            simp [hs, Nat.succ_le_succ_iff]
          · rw [uploadLoop, if_neg h, ih]
            have hs : s < items.length := lt_of_not_ge h
            simp [hs, itemMsg, Nat.succ_le_succ_iff]

/-- Helper: a filter that keeps every element of a list of in-range
sequence numbers. -/
theorem filter_keep {N : Nat} {l : List Nat} (h : ∀ s ∈ l, s < N) :
    l.filter (fun s => decide (s < N)) = l :=
  List.filter_eq_self.mpr fun a ha => by simpa using h a ha

/-- Helper: the first `N` requests of the stream `0..N-1` with one
out-of-bounds request inserted at position `k`, restricted to the
in-range ones. -/
theorem oob_stream_take_filter (N k oob : Nat) (hk : k ≤ N) (hoob : N ≤ oob) :
    (((List.range N).take k ++ oob :: (List.range N).drop k).take N).filter
        (fun s => decide (s < N)) =
      List.range (if k = N then N else N - 1) := by
  by_cases hkN : k = N
  · subst hkN
    have hA : (List.range k).take k = List.range k :=
      List.take_of_length_le (by simp)
    have hB : (List.range k).drop k = [] :=
      List.drop_eq_nil_of_le (by simp)
    rw [hA, hB, if_pos rfl]
    have htake : ((List.range k ++ [oob]).take k) = List.range k := by
      rw [List.take_append_of_le_length (by simp), hA]
    rw [htake]
    exact filter_keep (fun s hs => List.mem_range.mp hs)
  · have hklt : k < N := lt_of_le_of_ne hk hkN
    have hlenA : ((List.range N).take k).length = k := by
      simp [List.length_take]
      omega
    rw [List.take_append_eq_append_take, hlenA]
    have hA : ((List.range N).take k).take N = (List.range N).take k :=
      List.take_of_length_le (by rw [hlenA]; omega)
    rw [hA]
    have hsplit : N - k = (N - k - 1) + 1 := by omega
    rw [hsplit, List.take_succ_cons]
    rw [List.filter_append]
    have hfA : ((List.range N).take k).filter (fun s => decide (s < N)) =
        (List.range N).take k :=
      filter_keep (fun s hs => List.mem_range.mp (List.take_subset _ _ hs))
    have hfoob : ¬ (oob < N) := by omega
    rw [List.filter_cons_of_neg (by simpa using hfoob)]
    have hfB : (((List.range N).drop k).take (N - k - 1)).filter
        (fun s => decide (s < N)) = ((List.range N).drop k).take (N - k - 1) :=
      filter_keep (fun s hs =>
        List.mem_range.mp (List.drop_subset _ _ (List.take_subset _ _ hs)))
    rw [hfA, hfB, if_neg hkN]
    have hadd : (List.range N).take (k + (N - k - 1)) =
        (List.range N).take k ++ ((List.range N).drop k).take (N - k - 1) :=
      List.take_add _ _ _
    have hk1 : k + (N - k - 1) = N - 1 := by omega
    rw [hk1] at hadd
    rw [← hadd]
    have hN1 : N = (N - 1) + 1 := by omega
    rw [hN1, List.range_succ, List.take_append_of_le_length (by simp),
      List.take_of_length_le (by simp)]
    congr 1

/-- Claim C1: for a nonempty mission list whose vehicle acknowledges the
clear command, requests exactly the sequences `0..N-1` in order and then
acknowledges with the accepted code, `upload_mission` sends exactly one
mission-item message per index, in order, each carrying the item at the
requested index, and reports the attempt as accepted. -/
theorem upload_all_in_order (items : List MItem) (a : Int) (hne : items ≠ []) :
    upload_mission items ⟨some a, List.range items.length, some 0⟩ =
      (Event.connect :: Event.clearAll :: Event.missionCount items.length ::
        (List.range items.length).map (itemMsg items),
       UploadOutcome.accepted) := by
  have hni : ¬ items.isEmpty := by simpa [List.isEmpty_iff] using hne
  have htake : (List.range items.length).take items.length = List.range items.length :=
    List.take_of_length_le (by simp)
  have hfil : (List.range items.length).filter (fun s => decide (s < items.length)) =
      List.range items.length :=
    filter_keep (fun s hs => List.mem_range.mp hs)
  simp only [upload_mission, if_neg hni, uploadLoop_eq, htake, hfil, List.length_range]
  simp [MAV_MISSION_ACCEPTED]

/-- Witness for C1 at the singleton mission `[wA]`. -/
theorem upload_all_in_order_witness :
    upload_mission [wA] ⟨some 7, List.range 1, some 0⟩ =
      (Event.connect :: Event.clearAll :: Event.missionCount 1 ::
        (List.range 1).map (itemMsg [wA]),
       UploadOutcome.accepted) := by
  have h := upload_all_in_order [wA] 7 (by decide)
  simpa using h

/-- Counterexample for C2: with the one-item mission `[wA]` and the
request stream `[1, 0]` (an out-of-bounds request interleaved before the
single legitimate request 0), the loop's only receive round is consumed
by the skipped request: no mission-item message is ever sent — request 0
is never satisfied — yet the attempt is reported accepted. -/
theorem upload_oob_request_cex :
    upload_mission [wA] ⟨some 0, [1, 0], some 0⟩ =
      ([Event.connect, Event.clearAll, Event.missionCount 1],
       UploadOutcome.accepted) ∧
    itemMsg [wA] 0 ∉ (upload_mission [wA] ⟨some 0, [1, 0], some 0⟩).1 := by
  exact ⟨by decide, by decide⟩

/-- Claim C2 (amended): an out-of-bounds request is skipped without
aborting, but the skipped round still counts as one of the exactly `N`
receive rounds, so only the in-range requests among the first `N`
requests of the stream are served: with one out-of-bounds request
inserted at position `k` of the stream `0..N-1`, all `N` items are sent
only when it comes last (`k = N`); otherwise the final legitimate
request is never served and only items `0..N-2` are sent.  The attempt
is reported accepted whenever the accepted final acknowledgement
arrives. -/
theorem upload_oob_skip_amended (items : List MItem) (a : Int) (k oob : Nat)
    (hne : items ≠ []) (hk : k ≤ items.length) (hoob : items.length ≤ oob) :
    upload_mission items
        ⟨some a,
         (List.range items.length).take k ++ oob :: (List.range items.length).drop k,
         some 0⟩ =
      (Event.connect :: Event.clearAll :: Event.missionCount items.length ::
        (List.range (if k = items.length then items.length else items.length - 1)).map
          (itemMsg items),
       UploadOutcome.accepted) := by
  have hni : ¬ items.isEmpty := by simpa [List.isEmpty_iff] using hne
  simp only [upload_mission, if_neg hni, uploadLoop_eq,
    oob_stream_take_filter items.length k oob hk hoob]
  simp [MAV_MISSION_ACCEPTED, List.length_take, List.length_drop]
  omega

/-- Witness for the amended C2 at `[wA, wB]` with the out-of-bounds
request 5 inserted at position 1 (stream `[0, 5, 1]`). -/
theorem upload_oob_skip_amended_witness :
    upload_mission [wA, wB]
        ⟨some 0,
         (List.range [wA, wB].length).take 1 ++ 5 :: (List.range [wA, wB].length).drop 1,
         some 0⟩ =
      (Event.connect :: Event.clearAll :: Event.missionCount [wA, wB].length ::
        (List.range
          (if 1 = [wA, wB].length then [wA, wB].length else [wA, wB].length - 1)).map
          (itemMsg [wA, wB]),
       UploadOutcome.accepted) :=
  upload_oob_skip_amended [wA, wB] 0 1 5 (by decide) (by decide) (by decide)

/-- Helper: the first `N` requests of the stream `0..N-1` with the
request `k` duplicated right after its first occurrence; every retained
request is in range. -/
theorem dup_stream_take_filter (N k : Nat) (hk : k < N) :
    (((List.range N).take (k + 1) ++ k :: (List.range N).drop (k + 1)).take N).filter
        (fun s => decide (s < N)) =
      (if k + 1 = N then List.range N
       else (List.range N).take (k + 1) ++
         k :: ((List.range N).drop (k + 1)).take (N - (k + 2))) := by
  by_cases hkN : k + 1 = N
  · rw [if_pos hkN]
    have hA : (List.range N).take (k + 1) = List.range N :=
      List.take_of_length_le (by simp; omega)
    have hB : (List.range N).drop (k + 1) = [] :=
      List.drop_eq_nil_of_le (by simp; omega)
    rw [hA, hB]
    rw [List.take_append_of_le_length (by simp), List.take_of_length_le (by simp)]
    exact filter_keep (fun s hs => List.mem_range.mp hs)
  · rw [if_neg hkN]
    have hlenA : ((List.range N).take (k + 1)).length = k + 1 := by
      simp [List.length_take]
      omega
    rw [List.take_append_eq_append_take, hlenA,
      List.take_of_length_le (by rw [hlenA]; omega)]
    have hsplit : N - (k + 1) = (N - (k + 2)) + 1 := by omega
    rw [hsplit, List.take_succ_cons]
    refine filter_keep ?_
    intro s hs
    rcases List.mem_append.mp hs with h1 | h2
    · exact List.mem_range.mp (List.take_subset _ _ h1)
    · rcases List.mem_cons.mp h2 with rfl | h3
      · omega
      · exact List.mem_range.mp (List.drop_subset _ _ (List.take_subset _ _ h3))

/-- Counterexample for C3: with the two-item mission `[wA, wB]` and the
request stream `[0, 0, 1]` (sequence 0 re-requested before advancing),
the duplicated request consumes one of the two receive rounds: item 0
is sent twice, but the item at index 1 is never sent, so the attempt
does not deliver all `N` items even though it is reported accepted. -/
theorem upload_dup_request_cex :
    upload_mission [wA, wB] ⟨some 0, [0, 0, 1], some 0⟩ =
      (Event.connect :: Event.clearAll :: Event.missionCount 2 ::
        [itemMsg [wA, wB] 0, itemMsg [wA, wB] 0],
       UploadOutcome.accepted) ∧
    itemMsg [wA, wB] 1 ∉ (upload_mission [wA, wB] ⟨some 0, [0, 0, 1], some 0⟩).1 := by
  refine ⟨rfl, ?_⟩
  decide

/-- Claim C3 (amended): re-sending for a duplicated in-range request is
permitted, but each served round counts against the exactly `N` receive
rounds: for the stream `0..k, k, k+1..N-1`, exactly `N` item messages
are sent — items `0..k` then `k` again then `k+1..N-2` when the
duplicate is not last (`k + 1 < N`), so the item at index `N-1` is never
sent; when the duplicate is the last request (`k + 1 = N`) each item is
sent exactly once and the duplicate is never consumed.  The attempt is
reported accepted whenever the accepted final acknowledgement
arrives. -/
theorem upload_dup_resend_amended (items : List MItem) (a : Int) (k : Nat)
    (hk : k < items.length) :
    upload_mission items
        ⟨some a,
         (List.range items.length).take (k + 1) ++
           k :: (List.range items.length).drop (k + 1),
         some 0⟩ =
      (Event.connect :: Event.clearAll :: Event.missionCount items.length ::
        ((if k + 1 = items.length then List.range items.length
          else (List.range items.length).take (k + 1) ++
            k :: ((List.range items.length).drop (k + 1)).take
              (items.length - (k + 2)))).map (itemMsg items),
       UploadOutcome.accepted) := by
  have hni : ¬ items.isEmpty := by
    cases items with
    | nil => simp at hk
    | cons _ _ => simp
  simp only [upload_mission, if_neg hni, uploadLoop_eq,
    dup_stream_take_filter items.length k hk]
  simp [MAV_MISSION_ACCEPTED, List.length_take, List.length_drop]
  omega

/-- Witness for the amended C3 at `[wA, wB]` with request 1 duplicated
(stream `[0, 1, 1]`). -/
theorem upload_dup_resend_amended_witness :
    upload_mission [wA, wB]
        ⟨some 3,
         (List.range [wA, wB].length).take (1 + 1) ++
           1 :: (List.range [wA, wB].length).drop (1 + 1),
         some 0⟩ =
      (Event.connect :: Event.clearAll :: Event.missionCount [wA, wB].length ::
        ((if 1 + 1 = [wA, wB].length then List.range [wA, wB].length
          else (List.range [wA, wB].length).take (1 + 1) ++
            1 :: ((List.range [wA, wB].length).drop (1 + 1)).take
              ([wA, wB].length - (1 + 2)))).map (itemMsg [wA, wB]),
       UploadOutcome.accepted) :=
  upload_dup_resend_amended [wA, wB] 3 1 (by decide)

/-- Helper: `reindex` preserves length. -/
theorem reindex_length : ∀ (l : List MItem) (i : Nat), (reindex i l).length = l.length
  | [], _ => rfl
  | _ :: rest, i => by simp [reindex, reindex_length rest (i + 1)]

/-- Helper: after `reindex i`, the element at position `j` carries
sequence number `i + j`. -/
theorem reindex_seq : ∀ (l : List MItem) (i j : Nat), j < l.length →
    ((reindex i l).getD j default).seq = ((i + j : Nat) : Int)
  | [], _, j, h => by simp at h
  | it :: rest, i, 0, _ => by simp [reindex]
  | it :: rest, i, j + 1, h => by
      have := reindex_seq rest (i + 1) j (by simpa using h)
      simp only [reindex, List.getD_cons_succ]
      rw [this]
      congr 1
      omega

/-- Helper: `reindex` from a positive start index marks no item
current. -/
theorem reindex_current_zero : ∀ (l : List MItem) (i : Nat), 0 < i →
    ∀ it ∈ reindex i l, it.current = 0
  | [], _, _, it, h => by simp [reindex] at h
  | x :: rest, i, hi, it, h => by
      rcases List.mem_cons.mp h with rfl | h2
      · simp [Nat.pos_iff_ne_zero.mp hi]
      · exact reindex_current_zero rest (i + 1) (by omega) it h2

/-- Helper: `reindex` from a positive start index yields zero current
items. -/
theorem reindex_countP_zero : ∀ (l : List MItem) (i : Nat), 0 < i →
    (reindex i l).countP (fun it => it.current == 1) = 0
  | [], _, _ => rfl
  | x :: rest, i, hi => by
      simp [reindex, List.countP_cons, Nat.pos_iff_ne_zero.mp hi,
        reindex_countP_zero rest (i + 1) (by omega)]

/-- Helper: every nonempty output of the `.plan` decoder satisfies the
Waypoint invariants, thanks to its final correction pass. -/
theorem plan_invariant_general (raw : List RawItem) (hne : parse_plan raw ≠ []) :
    missionInvariant (parse_plan raw) := by
  unfold parse_plan at *
  cases hcol : planCollect raw 0 with
  | nil => rw [hcol] at hne; exact absurd rfl hne
  | cons it rest =>
      refine ⟨?_, ?_, ?_⟩
      · intro j hj
        have hjl : j < (it :: rest).length := by rwa [reindex_length] at hj
        have := reindex_seq (it :: rest) 0 j hjl
        simpa using this
      · simp [reindex, List.countP_cons, reindex_countP_zero rest 1 (by omega)]
      · intro x hx
        rcases List.mem_cons.mp hx with rfl | h2
        · intro _; simp
        · intro hcur
          have := reindex_current_zero rest 1 (by omega) x h2
          omega

/-- Counterexample for C4: the legacy `.txt` decoder copies the `seq`
and `current` fields verbatim from the file without normalizing, so a
well-formed file whose single data line carries `seq = 1` and
`current = 0` parses successfully to a list violating the Waypoint
invariants (sequences do not start at 0 and no item is current). -/
theorem txt_not_normalized_cex :
    parse_txt txtBadLines = some [txtBadItem] ∧ ¬ missionInvariant [txtBadItem] := by
  constructor
  · have h1 : parse_txt txtBadLines =
        some [mkTxtItem ([(false, ['1'], []), (false, ['0'], []), (false, ['3'], []),
          (false, ['1', '6'], []), (false, ['0'], []), (false, ['0'], []),
          (false, ['0'], []), (false, ['0'], []), (false, ['9'], []),
          (false, ['9'], []), (false, ['9'], []),
          (false, ['1'], [])].map litVal)] := rfl
    rw [h1]
    have d0 : digitsToNat ['0'] = 0 := by decide
    have d1 : digitsToNat ['1'] = 1 := by decide
    have d3 : digitsToNat ['3'] = 3 := by decide
    have d9 : digitsToNat ['9'] = 9 := by decide
    have d16 : digitsToNat ['1', '6'] = 16 := by decide
    have dnil : digitsToNat ([] : List Char) = 0 := by decide
    simp [mkTxtItem, litVal, d0, d1, d3, d9, d16, dnil, txtBadItem, pyInt]
  · decide

/-- Claim C4 (amended): the deterministic generator's list and every
nonempty list produced by the `.plan` decoder satisfy the Waypoint
invariants; the legacy `.txt` decoder does not normalize its output
(see the counterexample). -/
theorem producers_invariant_amended :
    missionInvariant generate_mission_items ∧
    ∀ raw : List RawItem, parse_plan raw ≠ [] → missionInvariant (parse_plan raw) :=
  ⟨by decide, plan_invariant_general⟩

/-- Witness for the amended C4 at a one-item `.plan` file. -/
theorem producers_invariant_witness :
    missionInvariant (parse_plan [RawItem.simple ⟨none, none, none, none⟩]) :=
  producers_invariant_amended.2 [RawItem.simple ⟨none, none, none, none⟩] (by decide)

/-- Claim C5: when no `MISSION_ACK` answers the clear command within its
3-second window, `upload_mission` returns at once; the protocol trace
contains only the connection and the clear command — no mission count
and no mission items are ever sent. -/
theorem upload_clear_timeout_stops (items : List MItem) (v : VehicleScript)
    (hne : items ≠ []) (hca : v.clearAck = none) :
    upload_mission items v =
      ([Event.connect, Event.clearAll], UploadOutcome.clearTimedOut) := by
  cases items with
  | nil => exact absurd rfl hne
  | cons it rest => simp [upload_mission, hca]

/-- Witness for C5 at the singleton mission `[wB]`. -/
theorem upload_clear_timeout_stops_witness :
    upload_mission [wB] ⟨none, [0], some 0⟩ =
      ([Event.connect, Event.clearAll], UploadOutcome.clearTimedOut) :=
  upload_clear_timeout_stops [wB] ⟨none, [0], some 0⟩ (by decide) rfl

/-- Claim C6: on the empty mission list, `upload_mission` returns
immediately with an empty trace — no connection is opened and no
protocol message of any kind is sent, whatever the vehicle would have
done. -/
theorem upload_empty_no_network (v : VehicleScript) :
    upload_mission [] v = ([], UploadOutcome.emptyList) := rfl

/-- Claim C7: the relay decodes every position report by dividing the
fixed-point latitude and longitude by 1e7 and converting the relative
altitude from millimeters to meters rounded to two decimals; in
particular `lat = 473977420`, `lon = 85455940`, `relative_alt = 20000`
yields the sample `(47.397742, 8.545594, 20.00)`. -/
theorem telemetry_decode_position :
    (∀ la lo ra : Int,
      handleMsg (TelemetryMsg.globalPositionInt la lo ra) =
        [RelayEvent.gpsUpdate ((la : ℚ) / 10000000) ((lo : ℚ) / 10000000)
          (round2 ((ra : ℚ) / 1000))]) ∧
    handleMsg (TelemetryMsg.globalPositionInt 473977420 85455940 20000) =
      [RelayEvent.gpsUpdate 47.397742 8.545594 20] := by
  refine ⟨fun la lo ra => rfl, ?_⟩
  have e1 : ((473977420 : Int) : ℚ) / 10000000 = 47.397742 := by norm_num
  have e2 : ((85455940 : Int) : ℚ) / 10000000 = 8.545594 := by norm_num
  have e3 : ((20000 : Int) : ℚ) / 1000 = 20 := by norm_num
  have hr : roundHalfEven (2000 : ℚ) = 2000 := by
    unfold roundHalfEven
    norm_num
  have h3 : round2 (20 : ℚ) = 20 := by
    have h20 : (20 : ℚ) * 100 = 2000 := by norm_num
    rw [round2, h20, hr]
    norm_num
  simp only [handleMsg, e1, e2, e3, h3]

/-- Helper: message handling emits no connection attempts. -/
theorem flatMap_no_connect (msgs : List TelemetryMsg) :
    (msgs.flatMap handleMsg).count RelayEvent.connectAttempt = 0 := by
  induction msgs with
  | nil => rfl
  | cons m rest ih =>
      rw [List.flatMap_cons, List.count_append, ih]
      cases m <;> simp [handleMsg, List.count_cons]

/-- Helper: every iteration of the relay loop makes exactly one
connection attempt. -/
theorem relayIteration_one_connect (inp : IterationInput) :
    (relayIteration inp).count RelayEvent.connectAttempt = 1 := by
  cases inp with
  | connectFail e => simp [relayIteration, List.count_cons]
  | session msgs ending =>
      cases ending <;>
        simp [relayIteration, endEvents, List.count_append, List.count_cons,
          flatMap_no_connect msgs]

/-- Claim C8: the relay loop never terminates on error — every finite
run performs one connection attempt per iteration, every iteration
(connect failure, receive timeout or transport exception alike) ends
with the session cleanup and the fixed 5-second backoff before
re-entering the connect phase, and every error emits a status event. -/
theorem relay_loop_resilient :
    (∀ inps : List IterationInput,
      (relayRun inps).count RelayEvent.connectAttempt = inps.length) ∧
    (∀ inp : IterationInput, ∃ mid : List RelayEvent,
      relayIteration inp = RelayEvent.connectAttempt ::
        (mid ++ [RelayEvent.sessionCleanup, RelayEvent.backoff 5])) ∧
    (∀ inp : IterationInput, ∃ e ∈ relayIteration inp, isErrorStatus e = true) := by
  refine ⟨?_, ?_, ?_⟩
  · intro inps
    induction inps with
    | nil => rfl
    | cons inp rest ih =>
        rw [relayRun, List.flatMap_cons, List.count_append]
        rw [relayRun] at ih
        rw [ih, relayIteration_one_connect]
        simp only [List.length_cons]
        omega
  · intro inp
    cases inp with
    | connectFail e => exact ⟨[RelayEvent.statusError ("MAVLink Error: " ++ e)], rfl⟩
    | session msgs ending =>
        exact ⟨RelayEvent.statusConnected :: (msgs.flatMap handleMsg ++ endEvents ending),
          by simp [relayIteration]⟩
  · intro inp
    cases inp with
    | connectFail e =>
        exact ⟨RelayEvent.statusError ("MAVLink Error: " ++ e),
          by simp [relayIteration], rfl⟩
    | session msgs ending =>
        cases ending with
        | timeout =>
            exact ⟨RelayEvent.statusTimeout, by simp [relayIteration, endEvents], rfl⟩
        | exn e =>
            exact ⟨RelayEvent.statusError ("MAVLink Error: " ++ e),
              by simp [relayIteration, endEvents], rfl⟩

/-- Counterexample for C9: loading a `.txt` file whose only line lacks
the `QGC WPL` header makes the program exit early with status 0 — the
bare Python `exit()` — not with a non-zero status; the network trace is
empty. -/
theorem main_parse_failure_cex :
    mainFlow ⟨false, some (FileInput.txtFile [['x']])⟩ ⟨none, [], none⟩ =
      (MainResult.exitEarly 0, []) := rfl

/-- Claim C9 (amended): whenever the requested mission file fails to
parse, the program exits early — with exit status 0, since `exit()` is
called with no argument — before any connection attempt, and no network
I/O toward the vehicle occurs. -/
theorem main_parse_failure_amended (args : MainArgs) (v : VehicleScript)
    (f : FileInput) (hf : args.loadFile = some f)
    (hparse : load_mission_from_file f = none) :
    mainFlow args v = (MainResult.exitEarly 0, []) := by
  cases args with
  | mk up lf =>
      simp only at hf
      rw [show lf = some f from hf]
      simp [mainFlow, hparse]

/-- Witness for the amended C9 at a `.plan` file whose JSON decoding
failed. -/
theorem main_parse_failure_amended_witness :
    mainFlow ⟨true, some (FileInput.planFile false [])⟩ ⟨some 0, [], none⟩ =
      (MainResult.exitEarly 0, []) :=
  main_parse_failure_amended ⟨true, some (FileInput.planFile false [])⟩ ⟨some 0, [], none⟩
    (FileInput.planFile false []) rfl rfl

/-- Helper: a blank line, a `#` line, or a line without exactly 12
tab-separated fields is silently skipped. -/
theorem parseTxtLine_skip (b : List Char)
    (hb : strip b = [] ∨ b.head? = some '#' ∨ (splitTab (strip b)).length ≠ 12) :
    parseTxtLine b = some none := by
  by_cases hbl : strip b = [] ∨ b.head? = some '#'
  · simp only [parseTxtLine, if_pos hbl]
  · have h12 : (splitTab (strip b)).length ≠ 12 := by tauto
    simp only [parseTxtLine, if_neg hbl]
    rw [if_pos h12]

/-- Helper: a retained line with an unparsable numeric field fails the
whole file. -/
theorem parseTxtLine_reject (b : List Char)
    (hb : ¬ (strip b = [] ∨ b.head? = some '#'))
    (h12 : (splitTab (strip b)).length = 12)
    (hbad : (splitTab (strip b)).mapM floatLit? = none) :
    parseTxtLine b = none := by
  simp only [parseTxtLine, if_neg hb]
  rw [if_neg (by simpa using h12), hbad]

/-- Helper: removing a skipped line anywhere in the body leaves the
parse unchanged. -/
theorem parseTxtBody_skip (pre post : List (List Char)) (b : List Char)
    (hb : parseTxtLine b = some none) :
    parseTxtBody (pre ++ b :: post) = parseTxtBody (pre ++ post) := by
  induction pre with
  | nil => simp [parseTxtBody, hb]
  | cons l ls ih =>
      cases hpl : parseTxtLine l with
      | none => simp [parseTxtBody, hpl]
      | some o =>
          cases o with
          | none => simpa [parseTxtBody, hpl] using ih
          | some it => simp [parseTxtBody, hpl, ih]

/-- Helper: a failing line anywhere in the body fails the whole body,
discarding the items of every other line. -/
theorem parseTxtBody_reject (pre post : List (List Char)) (b : List Char)
    (hb : parseTxtLine b = none) :
    parseTxtBody (pre ++ b :: post) = none := by
  induction pre with
  | nil => simp [parseTxtBody, hb]
  | cons l ls ih =>
      cases hpl : parseTxtLine l with
      | none => simp [parseTxtBody, hpl]
      | some o =>
          cases o with
          | none => simpa [parseTxtBody, hpl] using ih
          | some it => simp [parseTxtBody, hpl, ih]

/-- Claim C10: after a valid header, a body line that is blank, starts
with `#`, or does not split into exactly 12 tab-separated fields is
silently skipped (the parse equals the parse without that line), while
a retained line containing a field that is not a parseable number makes
the decoder reject the entire file, discarding all other waypoints. -/
theorem txt_skip_and_reject :
    (∀ (h : List Char) (pre post : List (List Char)) (b : List Char),
      startsWithChars qgcHeader h = true →
      (strip b = [] ∨ b.head? = some '#' ∨ (splitTab (strip b)).length ≠ 12) →
      parse_txt (h :: (pre ++ b :: post)) = parse_txt (h :: (pre ++ post))) ∧
    (∀ (h : List Char) (pre post : List (List Char)) (b : List Char),
      startsWithChars qgcHeader h = true →
      ¬ (strip b = [] ∨ b.head? = some '#') →
      (splitTab (strip b)).length = 12 →
      (splitTab (strip b)).mapM floatLit? = none →
      parse_txt (h :: (pre ++ b :: post)) = none) := by
  constructor
  · intro h pre post b hh hb
    simp only [parse_txt, if_pos hh]
    exact parseTxtBody_skip pre post b (parseTxtLine_skip b hb)
  · intro h pre post b hh hb h12 hbad
    simp only [parse_txt, if_pos hh]
    exact parseTxtBody_reject pre post b (parseTxtLine_reject b hb h12 hbad)

/-- Witness for C10: a comment line is skipped; a line whose ninth
field is `abc` rejects the file. -/
theorem txt_skip_and_reject_witness :
    parse_txt ["QGC WPL 110".data, "# comment".data] = parse_txt ["QGC WPL 110".data] ∧
    parse_txt ["QGC WPL 110".data,
      "0\t1\t3\t16\t0\t0\t0\t0\tabc\t8.0\t20.0\t1".data] = none := by
  constructor
  · have h := txt_skip_and_reject.1 "QGC WPL 110".data [] [] "# comment".data
      (by decide) (by decide)
    simpa only [List.nil_append] using h
  · have h := txt_skip_and_reject.2 "QGC WPL 110".data [] []
      "0\t1\t3\t16\t0\t0\t0\t0\tabc\t8.0\t20.0\t1".data
      (by decide) (by decide) (by decide) (by decide)
    simpa only [List.nil_append] using h
